import Mathlib

/-!
Formal model of the genetic asset-placement optimizer of this repository
(`src/backend/python/src/optimization/genetic_optimizer.py` together with the
data model in `src/backend/python/src/optimization/models.py`).

Modelling conventions:

* Python floats are modelled exactly by `ℚ` (ideal real arithmetic; every
  operation performed by the optimizer on scores and fitness values is a
  field operation, `min`, `max` or a comparison, so the algebraic structure
  is preserved).
* External library calls (shapely geometry predicates, Euclidean distances,
  `np.sqrt`, the numpy normal sampler, the index sets produced by
  `np.random.choice`) are modelled as fields of explicit oracle/stream
  structures (`GeomOracle`, `RunRand`) that are threaded through the
  algorithm as data.  The algorithm itself — gene decoding, constraint
  checking, scoring, fitness combination, selection, crossover, mutation,
  elitist survivor selection and the generational loop — is translated
  statement by statement from the source.
* `np.random.seed(seed)` makes the whole numpy draw sequence a function of
  the seed; accordingly a run consumes a `RunRand` record of draw streams,
  and "same seed" means "same record".
* `np.random.choice(..., k, replace=False)` raises `ValueError` whenever
  fewer than `k` distinct values are available: in `_crossover` for
  `gene_length < 2` (`npChoice2`) and in `_select_parents` for a population
  of fewer than 3 members (`selectParents`).  These failures are modelled by
  `Option`/`Except`, and a raised exception surfaces as `Except.error ()`.
* Violation strings `f"ERROR: ..."` / `f"WARNING: ..."` are modelled as
  structured records: every string appended by `_check_constraints` starts
  with exactly one of the two tags, asset ids (`f"{type}_{n}"`, lowercase)
  can never contain the substring `"ERROR"`, so the Python test
  `"ERROR" in v` coincides with the severity tag recorded here.
-/

/-! ### Small Python-arithmetic helpers -/

/-- Python `int(q)` for a float `q`: truncation toward zero. -/
def pyInt (q : ℚ) : ℤ := if 0 ≤ q then ⌊q⌋ else ⌈q⌉

/-- Python `max(a, b)` on two floats, written out so that kernel reduction
is direct. -/
def qmax (a b : ℚ) : ℚ := if a ≤ b then b else a

/-- Python `min(a, b)` on two floats. -/
def qmin (a b : ℚ) : ℚ := if a ≤ b then a else b

/-- `np.clip(x, 0, 1)`. -/
def clip01 (q : ℚ) : ℚ := qmax 0 (qmin 1 q)

/-- Python `max(l)` over a nonempty list of floats (`0` as junk value on `[]`,
where CPython would raise; every modelled call site passes a nonempty list). -/
def pyMax : List ℚ → ℚ
  | [] => 0
  | a :: l => l.foldl qmax a

/-- Python `min(l)` over a nonempty list of floats (junk `0` on `[]`). -/
def pyMin : List ℚ → ℚ
  | [] => 0
  | a :: l => l.foldl qmin a

/-- Single step of a stable descending insertion sort keyed by `key`:
the incoming element is placed in front of the first element whose key is
not larger, so earlier list elements precede later ones on equal keys —
exactly the observable contract of Python's stable
`list.sort(key=..., reverse=True)` / `sorted(key=lambda a: -a.priority)`. -/
def insertByDesc {α β : Type} [LinearOrder β] (key : α → β) (a : α) : List α → List α
  | [] => [a]
  | b :: l => if key b ≤ key a then a :: b :: l else b :: insertByDesc key a l

/-- Stable descending sort by `key` (models Python's stable sorted-descending). -/
def sortByDesc {α β : Type} [LinearOrder β] (key : α → β) : List α → List α
  | [] => []
  | a :: l => insertByDesc key a (sortByDesc key l)

/-! ### Data model (`models.py`) -/

/-- `AssetType` enum of `models.py`. -/
inductive AssetType
  | bess | substation | oAndM | parking | laydown | inverterPad
  | transformerPad | weatherStation | fence | accessRoad
deriving DecidableEq

/-- `OptimizationObjective` enum of `models.py`. -/
inductive OptimizationObjective
  | minEarthwork | maxCapacity | balanced | minCableLength | minRoadLength | custom
deriving DecidableEq

/-- `AssetDimensions` (fields consumed by the optimizer; `height` is never
read by `genetic_optimizer.py` and is omitted). -/
structure AssetDimensions where
  width : ℚ
  length : ℚ
  rotationAllowed : Bool
  rotationStep : ℚ
deriving DecidableEq

/-- `AssetConstraints` (fields consumed by the optimizer; `max_road_distance`,
`min_distance_to_other` and `preferred_elevation` are never read by
`genetic_optimizer.py` and are omitted). -/
structure AssetConstraints where
  minSetback : ℚ
  maxSlope : ℚ
  requiresRoadAccess : Bool
  minDistanceToSame : ℚ
  avoidExclusionZones : Bool
deriving DecidableEq

/-- `AssetDefinition` (fields consumed by the optimizer; the display `name`,
`required` and `cost_weight` are never read by `genetic_optimizer.py`). -/
structure AssetDefinition where
  assetType : AssetType
  dimensions : AssetDimensions
  constraints : AssetConstraints
  quantity : ℕ
  priority : ℤ
deriving DecidableEq

/-- `PlacedAsset`: the decoded phenotype of one asset instance.  The Python
`asset_id` string `f"{type}_{instance}"` is represented by the pair
(`assetType`, `instanceNum`); the derived shapely `footprint` polygon lives
behind the geometry oracle. -/
structure Placement where
  assetType : AssetType
  instanceNum : ℕ
  defn : AssetDefinition
  pos : ℚ × ℚ
  rotation : ℚ
deriving DecidableEq

/-- The optional 2-D slope raster of `SiteContext.slope_data` (`shape = (rows,
cols)`, entries read through `data`; the model only ever samples `data` at
indices the source has bounds-checked). -/
structure SlopeGrid where
  rows : ℕ
  cols : ℕ
  data : ℕ → ℕ → ℚ

/-- `SiteContext` after `_prepare_site_data`: the boundary's axis-aligned
bounding box `boundary.bounds = (min_x, min_y, max_x, max_y)`, whether any
exclusion zones were supplied (`prepared_exclusion is not None`), the slope
raster with its `grid_resolution`, the boundary centroid and the resolved
entry point (`entry_points[0]` or the centroid). -/
structure Site where
  minX : ℚ
  minY : ℚ
  maxX : ℚ
  maxY : ℚ
  hasExclusions : Bool
  slopeData : Option SlopeGrid
  gridResolution : ℚ
  centroid : ℚ × ℚ
  entryPoint : ℚ × ℚ

/-- `self.width = max_x - min_x` of `_prepare_site_data`. -/
def siteWidth (s : Site) : ℚ := s.maxX - s.minX

/-- `self.height = max_y - min_y` of `_prepare_site_data`. -/
def siteHeight (s : Site) : ℚ := s.maxY - s.minY

/-- Geometry oracle: the shapely / numpy geometric primitives consumed by the
optimizer, abstracted as pure functions of the decoded placement(s).  Each
field names the exact call in the source. -/
structure GeomOracle where
  /-- `self.prepared_boundary.contains(footprint)` -/
  containsFootprint : Placement → Bool
  /-- `self.site.boundary.intersects(footprint)` -/
  boundaryIntersects : Placement → Bool
  /-- `self.site.boundary.exterior.distance(footprint.centroid)` -/
  boundaryDistance : Placement → ℚ
  /-- `self.prepared_exclusion.intersects(footprint)` -/
  exclusionIntersects : Placement → Bool
  /-- `p1.footprint.distance(p2.footprint)` -/
  footprintDistance : Placement → Placement → ℚ
  /-- `p1.footprint.intersects(p2.footprint)` -/
  footprintsIntersect : Placement → Placement → Bool
  /-- `self.prepared_buildable.contains(p.footprint)` -/
  buildableContains : Placement → Bool
  /-- shapely `Point.distance` / `np.linalg.norm` Euclidean point distance -/
  pointDist : ℚ × ℚ → ℚ × ℚ → ℚ
  /-- `np.sqrt` as used for the site diagonal -/
  sqrtQ : ℚ → ℚ

/-- Violation severity: the `"ERROR: "` / `"WARNING: "` prefix of every
string appended by `_check_constraints`. -/
inductive Severity
  | error | warning
deriving DecidableEq

/-- Which constraint rule emitted a violation (determined by the message
text of the corresponding `violations.append` in `_check_constraints`). -/
inductive RuleKind
  | outsideBoundary | partlyOutside | setback | exclusion | slope | spacing | overlap
deriving DecidableEq

/-- One entry of the `violations` list. -/
structure Violation where
  severity : Severity
  rule : RuleKind
deriving DecidableEq

/-- The five keys of the `scores` dict built by `_calculate_objectives`. -/
inductive ObjKey
  | earthwork | cableLength | roadLength | compactness | capacity
deriving DecidableEq

/-- The `scores` dict: `_calculate_objectives` always populates all five keys. -/
structure Scores where
  earthwork : ℚ
  cableLength : ℚ
  roadLength : ℚ
  compactness : ℚ
  capacity : ℚ
deriving DecidableEq

/-- `scores.get(key, 0.5)`; the dict always holds all five keys, so the
default is never taken for the keys used by the default weight table. -/
def scoreGet (s : Scores) : ObjKey → ℚ
  | .earthwork => s.earthwork
  | .cableLength => s.cableLength
  | .roadLength => s.roadLength
  | .compactness => s.compactness
  | .capacity => s.capacity

/-- `key in ["earthwork", "cable_length", "road_length"]` of
`_evaluate_individual`. -/
def isCostKey : ObjKey → Bool
  | .earthwork => true
  | .cableLength => true
  | .roadLength => true
  | _ => false

/-- `OptimizationConfig` (fields consumed by the modelled paths; the random
seed is represented by the `RunRand` stream record, `parallel_workers` is
never used by the source, and `generate_alternatives` only shapes the
alternative list, which no claim concerns). -/
structure OptimizationConfig where
  objective : OptimizationObjective
  objectiveWeights : List (ObjKey × ℚ)
  populationSize : ℕ
  generations : ℕ
  mutationRate : ℚ
  crossoverRate : ℚ
  eliteSize : ℕ
  convergenceThreshold : ℚ
  maxStagnation : ℕ

/-- The default `objective_weights` dict (insertion order preserved). -/
def defaultObjectiveWeights : List (ObjKey × ℚ) :=
  [(.earthwork, 2/5), (.cableLength, 3/10), (.roadLength, 1/5), (.compactness, 1/10)]

/-- One optimization run's static environment: config, prepared site data,
geometry oracle and the requested asset list (constructor arguments of
`GeneticOptimizer`). -/
structure Env where
  cfg : OptimizationConfig
  site : Site
  oracle : GeomOracle
  assets : List AssetDefinition

/-! ### Chromosome codec (`__init__` bookkeeping and `_decode_genes`) -/

/-- `self.assets = sorted(assets_to_place, key=lambda a: -a.priority)`:
stable sort by descending priority, ties in declaration order. -/
def sortAssets (assets : List AssetDefinition) : List AssetDefinition :=
  sortByDesc (fun a => a.priority) assets

/-- `self.total_assets = sum(a.quantity for a in self.assets)`. -/
def totalAssets (assets : List AssetDefinition) : ℕ :=
  ((sortAssets assets).map (fun a => a.quantity)).sum

/-- The inner per-asset expansion `[(i, asset) for i in range(asset.quantity)]`. -/
def expandOne (a : AssetDefinition) : List (ℕ × AssetDefinition) :=
  (List.range a.quantity).map (fun i => (i, a))

/-- `self.expanded_assets`: each asset of the priority-sorted list repeated
`quantity` times with its instance number. -/
def expandAssets (assets : List AssetDefinition) : List (ℕ × AssetDefinition) :=
  (sortAssets assets).flatMap expandOne

/-- Rotation decoding of `_decode_genes`:
`num_steps = int(360 / rot_step)`, `rot_index = int(rot_norm * num_steps) %
num_steps`, `rotation = rot_index * rot_step`, and `0.0` whenever rotation is
disallowed.  `%` is `Int.emod`, which agrees with Python `%` for the positive
modulus produced by any `rotation_step ≤ 360`.  (For `rotation_step > 360`
Python would raise `ZeroDivisionError` on `% 0`; the model is total there,
and no claim touches that out-of-contract case.) -/
def decodeRotation (rotationAllowed : Bool) (rotationStep : ℚ) (rotNorm : ℚ) : ℚ :=
  if rotationAllowed then
    let numSteps : ℤ := pyInt (360 / rotationStep)
    let rotIndex : ℤ := pyInt (rotNorm * (numSteps : ℚ)) % numSteps
    (rotIndex : ℚ) * rotationStep
  else 0

/-- Junk asset definition for total `getD` indexing (never reachable inside
the length bounds the theorems assume). -/
def defaultAssetDef : AssetDefinition :=
  { assetType := .bess
  , dimensions := { width := 0, length := 0, rotationAllowed := false, rotationStep := 90 }
  , constraints := { minSetback := 0, maxSlope := 0, requiresRoadAccess := false
                   , minDistanceToSame := 0, avoidExclusionZones := false }
  , quantity := 0
  , priority := 0 }

/-- Junk placement for total `getD` indexing. -/
def defaultPlacement : Placement :=
  { assetType := .bess, instanceNum := 0, defn := defaultAssetDef, pos := (0, 0), rotation := 0 }

/-- `_decode_genes`: instance `i` of the expanded asset list reads genes
`3*i`, `3*i+1`, `3*i+2` (`genes_per_asset = 3`), the position is the affine
image of the normalized genes over the bounding box, and the rotation is
quantized by `decodeRotation`.  List indexing is totalized with a junk
default: the source always passes gene vectors of length
`3 * total_assets`. -/
def decodeGenes (site : Site) (assets : List AssetDefinition) (genes : List ℚ) :
    List Placement :=
  (expandAssets assets).enum.map (fun ia =>
    let base := 3 * ia.1
    let x := site.minX + genes.getD base 0 * siteWidth site
    let y := site.minY + genes.getD (base + 1) 0 * siteHeight site
    { assetType := ia.2.2.assetType
    , instanceNum := ia.2.1
    , defn := ia.2.2
    , pos := (x, y)
    , rotation := decodeRotation ia.2.2.dimensions.rotationAllowed
        ia.2.2.dimensions.rotationStep (genes.getD (base + 2) 0) })

/-! ### Slope sampling (`_get_slope_at_position`) -/

/-- `col = int((x - self.min_x) / self.site.grid_resolution)`. -/
def slopeCol (site : Site) (pos : ℚ × ℚ) : ℤ :=
  pyInt ((pos.1 - site.minX) / site.gridResolution)

/-- `row = int((self.max_y - y) / self.site.grid_resolution)`. -/
def slopeRow (site : Site) (pos : ℚ × ℚ) : ℤ :=
  pyInt ((site.maxY - pos.2) / site.gridResolution)

/-- The bounds test `0 <= row < rows and 0 <= col < cols`. -/
def slopeInBounds (grid : SlopeGrid) (row col : ℤ) : Prop :=
  0 ≤ row ∧ row < (grid.rows : ℤ) ∧ 0 ≤ col ∧ col < (grid.cols : ℤ)

instance (grid : SlopeGrid) (row col : ℤ) : Decidable (slopeInBounds grid row col) := by
  unfold slopeInBounds; infer_instance

/-- `_get_slope_at_position`: `None` without slope data, `None` when the
computed cell is outside the raster, otherwise the sampled raster value. -/
def getSlopeAtPosition (site : Site) (pos : ℚ × ℚ) : Option ℚ :=
  match site.slopeData with
  | none => none
  | some grid =>
    let col := slopeCol site pos
    let row := slopeRow site pos
    if slopeInBounds grid row col then some (grid.data row.toNat col.toNat) else none

/-! ### Constraint checker (`_check_constraints`) -/

/-- Boundary containment rule (rule order as in the source): `ERROR` when the
footprint does not even intersect the boundary, `WARNING` when it is only
partially outside.  (`PlacedAsset.__post_init__` always computes a footprint,
so the `footprint is None: continue` guard of the source is dead code and not
modelled.) -/
def boundaryViolations (oracle : GeomOracle) (p : Placement) : List Violation :=
  if oracle.containsFootprint p then []
  else if oracle.boundaryIntersects p then [⟨.warning, .partlyOutside⟩]
  else [⟨.error, .outsideBoundary⟩]

/-- Setback rule: `ERROR` when the centroid's distance to the boundary
exterior is below the asset's `min_setback`. -/
def setbackViolations (oracle : GeomOracle) (p : Placement) : List Violation :=
  if oracle.boundaryDistance p < p.defn.constraints.minSetback then [⟨.error, .setback⟩]
  else []

/-- Exclusion-zone rule: `ERROR` when avoidance is requested, exclusion zones
exist (`self.prepared_exclusion` is not `None`) and the footprint meets the
exclusion union. -/
def exclusionViolations (site : Site) (oracle : GeomOracle) (p : Placement) : List Violation :=
  if p.defn.constraints.avoidExclusionZones ∧ site.hasExclusions = true
      ∧ oracle.exclusionIntersects p then [⟨.error, .exclusion⟩]
  else []

/-- Slope rule: `WARNING` when slope data exists, the sampled slope is not
`None`, and it exceeds the asset's `max_slope`. -/
def slopeViolations (site : Site) (p : Placement) : List Violation :=
  match site.slopeData with
  | none => []
  | some _ =>
    match getSlopeAtPosition site p.pos with
    | some s => if p.defn.constraints.maxSlope < s then [⟨.warning, .slope⟩] else []
    | none => []

/-- Whether the slope rule of `_check_constraints` fires for one placement:
slope data exists, the sampled slope at its position is not `None`, and it
exceeds the asset's `max_slope` (the condition guarding the slope `WARNING`
append of the source). -/
def slopeWarns (site : Site) (p : Placement) : Bool :=
  match site.slopeData with
  | none => false
  | some _ =>
    match getSlopeAtPosition site p.pos with
    | some s => decide (p.defn.constraints.maxSlope < s)
    | none => false

/-- All per-placement rules, in source order. -/
def placementViolations (site : Site) (oracle : GeomOracle) (p : Placement) : List Violation :=
  boundaryViolations oracle p ++ setbackViolations oracle p
    ++ exclusionViolations site oracle p ++ slopeViolations site p

/-- Pairwise rules for one unordered pair `(p1, p2)` with `p1` earlier in the
list: same-type spacing `WARNING`, then footprint-overlap `ERROR`. -/
def pairViolations (oracle : GeomOracle) (p1 p2 : Placement) : List Violation :=
  (if p1.assetType = p2.assetType ∧ 0 < p1.defn.constraints.minDistanceToSame
      ∧ oracle.footprintDistance p1 p2 < p1.defn.constraints.minDistanceToSame
    then [⟨.warning, .spacing⟩] else [])
  ++ (if oracle.footprintsIntersect p1 p2 then [⟨.error, .overlap⟩] else [])

/-- The ordered pairs `i < j` in the iteration order of the double loop
(`i` outer ascending, `j` inner ascending past `i`). -/
def pairsAfter {α : Type} : List α → List (α × α)
  | [] => []
  | x :: xs => (xs.map (fun y => (x, y))) ++ pairsAfter xs

/-- `_check_constraints`: all per-placement violations in placement order,
followed by all pairwise violations. -/
def checkConstraints (site : Site) (oracle : GeomOracle) (ps : List Placement) :
    List Violation :=
  (ps.map (placementViolations site oracle)).flatten
    ++ ((pairsAfter ps).map (fun q => pairViolations oracle q.1 q.2)).flatten

/-- `len([v for v in violations if "ERROR" in v])`: every string carries its
severity tag as a prefix and no id can contain `"ERROR"`, so the substring
test counts exactly the error-tagged entries. -/
def countErrorViolations (vs : List Violation) : ℕ :=
  (vs.filter (fun v => v.severity = Severity.error)).length

/-! ### Objective evaluator (`_calculate_*_score`, `_calculate_objectives`) -/

/-- `_calculate_earthwork_score`: neutral `0.5` without slope data or when no
placement has a sampled slope; otherwise the average sampled slope normalized
against a 15-degree ceiling, capped at `1`. -/
def earthworkScore (site : Site) (ps : List Placement) : ℚ :=
  match site.slopeData with
  | none => 1/2
  | some _ =>
    let slopes := ps.filterMap (fun p => getSlopeAtPosition site p.pos)
    if slopes.length = 0 then 1/2
    else qmin 1 ((slopes.sum / (slopes.length : ℚ)) / 15)

/-- `_calculate_cable_length_score`: distances of all non-substation assets
to the first placed substation (or the site centroid), normalized by
(site diagonal × placement count). -/
def cableLengthScore (site : Site) (oracle : GeomOracle) (ps : List Placement) : ℚ :=
  if ps = [] then 1/2
  else
    let ref := match ps.find? (fun p => p.assetType = AssetType.substation) with
      | some p => p.pos
      | none => site.centroid
    let total := ((ps.filter (fun p => ¬ p.assetType = AssetType.substation)).map
      (fun p => oracle.pointDist ref p.pos)).sum
    let maxD := oracle.sqrtQ (siteWidth site ^ 2 + siteHeight site ^ 2) * (ps.length : ℚ)
    if 0 < maxD then qmin 1 (total / maxD) else 1/2

/-- `_calculate_road_length_score`: distances from the entry point to every
asset requiring road access, same normalization. -/
def roadLengthScore (site : Site) (oracle : GeomOracle) (ps : List Placement) : ℚ :=
  if ps = [] then 1/2
  else
    let total := ((ps.filter (fun p => p.defn.constraints.requiresRoadAccess)).map
      (fun p => oracle.pointDist site.entryPoint p.pos)).sum
    let maxD := oracle.sqrtQ (siteWidth site ^ 2 + siteHeight site ^ 2) * (ps.length : ℚ)
    if 0 < maxD then qmin 1 (total / maxD) else 1/2

/-- `_calculate_compactness_score`: `1.0` below two placements, otherwise
one minus the mean distance to the position centroid normalized by half the
site diagonal. -/
def compactnessScore (site : Site) (oracle : GeomOracle) (ps : List Placement) : ℚ :=
  if ps.length < 2 then 1
  else
    let n : ℚ := (ps.length : ℚ)
    let cx := (ps.map (fun p => p.pos.1)).sum / n
    let cy := (ps.map (fun p => p.pos.2)).sum / n
    let avg := ((ps.map (fun p => oracle.pointDist p.pos (cx, cy))).sum) / n
    let maxD := oracle.sqrtQ (siteWidth site ^ 2 + siteHeight site ^ 2) / 2
    if 0 < maxD then 1 - qmin 1 (avg / maxD) else 1/2

/-- `_calculate_capacity_score`: fraction of placements whose footprint is
contained in the buildable area (`0.0` for an empty placement list). -/
def capacityScore (oracle : GeomOracle) (ps : List Placement) : ℚ :=
  if ps = [] then 0
  else ((ps.filter (fun p => oracle.buildableContains p)).length : ℚ) / (ps.length : ℚ)

/-- `_calculate_objectives`. -/
def calculateObjectives (site : Site) (oracle : GeomOracle) (ps : List Placement) : Scores :=
  { earthwork := earthworkScore site ps
  , cableLength := cableLengthScore site oracle ps
  , roadLength := roadLengthScore site oracle ps
  , compactness := compactnessScore site oracle ps
  , capacity := capacityScore oracle ps }

/-- The objective-combination branch of `_evaluate_individual`: the three
named single objectives, and the weighted sum (costs inverted) for every
other objective value (`BALANCED`, `MIN_ROAD_LENGTH`, `CUSTOM` all reach the
`else` branch of the source). -/
def combinedScore (cfg : OptimizationConfig) (s : Scores) : ℚ :=
  match cfg.objective with
  | .minEarthwork => 1 - s.earthwork
  | .maxCapacity => s.capacity
  | .minCableLength => 1 - s.cableLength
  | _ => cfg.objectiveWeights.foldl
      (fun acc kw =>
        acc + kw.2 * (if isCostKey kw.1 then 1 - scoreGet s kw.1 else scoreGet s kw.1)) 0

/-- The tail of `_evaluate_individual`: violation penalty of `0.1` per entry,
floor at `0`, then the `0.2` validity bonus (added after the floor). -/
def fitnessFromScores (cfg : OptimizationConfig) (s : Scores) (vs : List Violation) : ℚ :=
  let base := combinedScore cfg s
  let penalized := qmax 0 (base - (vs.length : ℚ) * (1/10))
  if countErrorViolations vs = 0 then penalized + 1/5 else penalized

/-- The evaluation record stored on an `Individual` by `_evaluate_individual`. -/
structure EvalResult where
  scores : Scores
  violations : List Violation
  isValid : Bool
  fitness : ℚ
deriving DecidableEq

/-- `_evaluate_individual`: decode, check constraints, set
`is_valid = (no "ERROR" violation)`, compute scores, combine into fitness. -/
def evaluateIndividual (E : Env) (genes : List ℚ) : EvalResult :=
  let placements := decodeGenes E.site E.assets genes
  let violations := checkConstraints E.site E.oracle placements
  let scores := calculateObjectives E.site E.oracle placements
  { scores := scores
  , violations := violations
  , isValid := decide (countErrorViolations violations = 0)
  , fitness := fitnessFromScores E.cfg scores violations }

/-! ### Evolutionary engine (`optimize` and its helpers) -/

/-- `Individual`: the gene vector plus the fitness stamped on it by
`_evaluate_population` (the derived scores/violations are recomputed from
the genes whenever needed, hence not duplicated here). -/
structure Individual where
  genes : List ℚ
  fitness : ℚ
deriving DecidableEq

/-- Junk individual for total `getD` indexing into population lists. -/
def defaultIndividual : Individual := { genes := [], fitness := 0 }

/-- Evaluate a gene vector into an `Individual`. -/
def evalIndGenes (E : Env) (gs : List ℚ) : Individual :=
  { genes := gs, fitness := (evaluateIndividual E gs).fitness }

/-- `max(iterable, key=lambda i: i.fitness)`: Python returns the first
element attaining the maximal key (junk default on `[]`, where CPython
raises). -/
def maxByFitness (d : Individual) : List Individual → Individual
  | [] => d
  | a :: l => l.foldl (fun best x => if best.fitness < x.fitness then x else best) a

/-- `max(ind.fitness for ind in pop)` / `max(pop, key=...).fitness`. -/
def bestFitness (pop : List Individual) : ℚ := pyMax (pop.map (fun i => i.fitness))

/-- The per-run random draw streams, all determined by the numpy seed set in
`__init__` (`np.random.seed(self.config.random_seed)`).  Index conventions:
generation, then call slot within the generation, then gene index where
applicable.  `tournament`/`surv` deliver the index sets drawn by
`np.random.choice(..., replace=False)`; `crossPt` delivers the two raw cut
points (sorted by the model); `initN`/`mutN` deliver Gaussian samples. -/
structure RunRand where
  initG : ℕ → ℕ → ℚ
  initN : ℕ → ℚ
  tournament : ℕ → ℕ → List ℕ
  crossU : ℕ → ℕ → ℚ
  crossPt : ℕ → ℕ → ℕ × ℕ
  mutU : ℕ → ℕ → ℕ → ℚ
  mutN : ℕ → ℕ → ℕ → ℚ
  surv : ℕ → ℕ → List ℕ

/-- `int(np.ceil(np.sqrt(n)))` for the grid heuristic. -/
def ceilSqrt (n : ℕ) : ℕ :=
  if Nat.sqrt n * Nat.sqrt n = n then Nat.sqrt n else Nat.sqrt n + 1

/-- The center-placement heuristic individual: `0.5 + N(0, 0.1)` on the two
position genes of every asset (draws consumed x-then-y per asset), `0.0`
rotation, the whole vector clipped to `[0, 1]`. -/
def centerGenes (ta : ℕ) (nD : ℕ → ℚ) : List ℚ :=
  (List.range (3 * ta)).map (fun j =>
    if j % 3 = 2 then clip01 0
    else clip01 (1/2 + nD (2 * (j / 3) + j % 3)))

/-- `_create_grid_placement`: cell `(i % g, i // g)` of a `g × g` grid with
`g = ⌈√total⌉`, cell centers in normalized coordinates, zero rotation. -/
def gridGenes (ta : ℕ) : List ℚ :=
  let g := ceilSqrt ta
  (List.range (3 * ta)).map (fun j =>
    let i := j / 3
    if j % 3 = 0 then (((i % g : ℕ) : ℚ) + 1/2) / (g : ℚ)
    else if j % 3 = 1 then (((i / g : ℕ) : ℚ) + 1/2) / (g : ℚ)
    else 0)

/-- `_initialize_population` followed by the initial
`_evaluate_population`: `population_size - 2` uniform-random individuals,
then the center heuristic, then the grid heuristic. -/
def initPopulation (E : Env) (R : RunRand) : List Individual :=
  let gl := 3 * totalAssets E.assets
  let randoms := (List.range (E.cfg.populationSize - 2)).map
    (fun i => (List.range gl).map (R.initG i))
  ((randoms ++ [centerGenes (totalAssets E.assets) R.initN, gridGenes (totalAssets E.assets)]).map
    (evalIndGenes E))

/-- `_select_parents`: `len(population)` tournaments; each draw set comes
from the stream, the winner is the first fitness-maximal drawn individual.
Every loop iteration calls `np.random.choice(population, 3, replace=False)`,
which raises `ValueError` (here `Except.error ()`) whenever the population
holds fewer than 3 members, because 3 distinct members cannot be sampled;
with an empty population the loop body never runs, so nothing is raised and
the empty parent list is returned. -/
def selectParents (pop : List Individual) (draws : ℕ → List ℕ) :
    Except Unit (List Individual) :=
  if 0 < pop.length ∧ pop.length < 3 then .error ()
  else .ok ((List.range pop.length).map (fun s =>
    maxByFitness defaultIndividual ((draws s).map (fun i => pop.getD i defaultIndividual))))

/-- `np.random.choice(n, 2, replace=False)` followed by `sorted(...)`:
raises (`none`) whenever `n < 2`, otherwise the two cut points in order. -/
def npChoice2 (n : ℕ) (raw : ℕ × ℕ) : Option (ℕ × ℕ) :=
  if 2 ≤ n then some (min raw.1 raw.2, max raw.1 raw.2) else none

/-- One crossover pair: with probability `crossover_rate` a two-point
crossover at the drawn cut points, otherwise exact copies; a raised
`ValueError` from `np.random.choice` surfaces as `Except.error ()`. -/
def crossoverChildren (rate : ℚ) (geneLen : ℕ) (u : ℚ) (raw : ℕ × ℕ)
    (g1 g2 : List ℚ) : Except Unit (List ℚ × List ℚ) :=
  if u < rate then
    match npChoice2 geneLen raw with
    | none => .error ()
    | some ab =>
      .ok (g1.take ab.1 ++ (g2.drop ab.1).take (ab.2 - ab.1) ++ g1.drop ab.2,
           g2.take ab.1 ++ (g1.drop ab.1).take (ab.2 - ab.1) ++ g2.drop ab.2)
  else .ok (g1, g2)

/-- The pair loop of `_crossover` over pair indices
(`for i in range(0, len(parents) - 1, 2)` pairs parents `2k` and `2k+1`). -/
def crossoverPairs (rate : ℚ) (geneLen : ℕ) (parents : List Individual)
    (uD : ℕ → ℚ) (ptD : ℕ → ℕ × ℕ) : List ℕ → Except Unit (List (List ℚ))
  | [] => .ok []
  | k :: ks =>
    match crossoverChildren rate geneLen (uD k) (ptD k)
        (parents.getD (2 * k) defaultIndividual).genes
        (parents.getD (2 * k + 1) defaultIndividual).genes with
    | .error e => .error e
    | .ok c =>
      match crossoverPairs rate geneLen parents uD ptD ks with
      | .error e => .error e
      | .ok rest => .ok (c.1 :: c.2 :: rest)

/-- `_crossover`: `⌊len(parents) / 2⌋` consecutive pairs. -/
def crossover (rate : ℚ) (geneLen : ℕ) (parents : List Individual)
    (uD : ℕ → ℚ) (ptD : ℕ → ℕ × ℕ) : Except Unit (List (List ℚ)) :=
  crossoverPairs rate geneLen parents uD ptD (List.range (parents.length / 2))

/-- `_mutate` on one gene vector: per-gene Bernoulli(`mutation_rate`)
Gaussian bump, clipped to `[0, 1]`. -/
def mutateGenes (rate : ℚ) (uD nD : ℕ → ℚ) (genes : List ℚ) : List ℚ :=
  genes.enum.map (fun ig => if uD ig.1 < rate then clip01 (ig.2 + nD ig.1) else ig.2)

/-- `_select_survivors`: pool `population + offspring`, sort descending by
fitness (stable), keep the top `elite_size`, fill to `population_size` with
tournaments over the remainder, truncate to `population_size`. -/
def selectSurvivors (cfg : OptimizationConfig) (pop offspring : List Individual)
    (draws : ℕ → List ℕ) : List Individual :=
  let combined := sortByDesc (fun i => i.fitness) (pop ++ offspring)
  let elite := combined.take cfg.eliteSize
  let remaining := combined.drop cfg.eliteSize
  let winners := (List.range (cfg.populationSize - elite.length)).map (fun s =>
    maxByFitness defaultIndividual ((draws s).map (fun i => remaining.getD i defaultIndividual)))
  (elite ++ winners).take cfg.populationSize

/-- One generation body of `optimize` up to survivor selection: selection
(which can raise on a too-small population), crossover (which can raise with
fewer than two genes), mutation, offspring evaluation, elitist survivor
selection. -/
def gaStep (E : Env) (R : RunRand) (g : ℕ) (pop : List Individual) :
    Except Unit (List Individual) :=
  match selectParents pop (R.tournament g) with
  | .error e => .error e
  | .ok parents =>
    match crossover E.cfg.crossoverRate (3 * totalAssets E.assets) parents
        (R.crossU g) (R.crossPt g) with
    | .error e => .error e
    | .ok offGenes =>
      let offspring := (offGenes.enum.map (fun jg =>
        mutateGenes E.cfg.mutationRate (R.mutU g jg.1) (R.mutN g jg.1) jg.2)).map
        (evalIndGenes E)
      .ok (selectSurvivors E.cfg pop offspring (R.surv g))

/-- The `(best_ever, stagnation_count)` update of the loop body: reset on a
strictly better (or first) generation best, otherwise count up. -/
def stagUpd (st : Option ℚ × ℕ) (x : ℚ) : Option ℚ × ℕ :=
  match st.1 with
  | none => (some x, 0)
  | some b => if b < x then (some x, 0) else (st.1, st.2 + 1)

/-- `(best_ever, stagnation_count)` as a pure function of the recorded
history (entry 0 is the pre-loop best, later entries the per-generation
bests the loop folds `stagUpd` over). -/
def stagState (hist : List ℚ) : Option ℚ × ℕ :=
  (hist.drop 1).foldl stagUpd (none, 0)

/-- `max(recent) - min(recent)` for `recent = history[-10:]`. -/
def last10Range (hist : List ℚ) : ℚ :=
  let recent := hist.drop (hist.length - 10)
  pyMax recent - pyMin recent

/-- The generational loop of `optimize`: structural recursion on the number
of remaining generations (`for generation in range(self.config.generations)`),
carrying the population, the recorded convergence history and the
`(best_ever, stagnation)` pair, with the two `break` tests of the source in
order.  Returns the final history and the number of iterations executed. -/
def gaLoopAux (E : Env) (R : RunRand) :
    ℕ → ℕ → List Individual → List ℚ → Option ℚ × ℕ → Except Unit (List ℚ × ℕ)
  | 0, g, _, hist, _ => .ok (hist, g)
  | fuel + 1, g, pop, hist, st =>
    match gaStep E R g pop with
    | .error e => .error e
    | .ok pop2 =>
      let cb := (maxByFitness defaultIndividual pop2).fitness
      let hist2 := hist ++ [cb]
      let st2 := stagUpd st cb
      if E.cfg.maxStagnation ≤ st2.2 then .ok (hist2, g + 1)
      else if 10 < hist2.length ∧ last10Range hist2 < E.cfg.convergenceThreshold then
        .ok (hist2, g + 1)
      else gaLoopAux E R fuel (g + 1) pop2 hist2 st2

/-- The result fields of `OptimizationResult` the claims concern, plus the
two ambient-effect fields (`total_time_ms` from `time.time()`,
`solution_id` from `uuid.uuid4()`) that exist to witness that wall-clock and
uuid draws do not influence the search. -/
structure ResultModel where
  history : List ℚ
  totalGenerations : ℕ
  totalTimeMs : ℚ
  solutionId : ℕ
deriving DecidableEq

/-- `optimize`: build and evaluate the initial population, record its best,
run the generational loop, and assemble the result.  `clock` models
`time.time()` draws and `uuidGen` models `uuid.uuid4()` draws; neither feeds
back into the search.  (For `generations = 0` the source would crash on the
unbound loop variable; the model is total there and no claim touches it.) -/
def optimizeFull (E : Env) (R : RunRand) (clock : ℕ → ℚ) (uuidGen : ℕ → ℕ) :
    Except Unit ResultModel :=
  let pop0 := initPopulation E R
  let hist0 := [bestFitness pop0]
  match gaLoopAux E R E.cfg.generations 0 pop0 hist0 (none, 0) with
  | .error e => .error e
  | .ok hi =>
    .ok { history := hi.1
        , totalGenerations := hi.2
        , totalTimeMs := (clock 1 - clock 0) * 1000
        , solutionId := uuidGen 0 }

/-- The stop condition the source actually tests after each generation:
stagnation reached `max_stagnation`, or (strictly more than 10 recorded
bests and) the range of the last 10 recorded bests below the threshold. -/
def gaBreakCond (cfg : OptimizationConfig) (hist : List ℚ) : Prop :=
  cfg.maxStagnation ≤ (stagState hist).2
    ∨ (10 < hist.length ∧ last10Range hist < cfg.convergenceThreshold)

instance (cfg : OptimizationConfig) (hist : List ℚ) : Decidable (gaBreakCond cfg hist) := by
  unfold gaBreakCond; infer_instance

/-- The stop condition as the claim states it: the convergence test applies
as soon as 10 best-fitness values have been recorded. -/
def claimedStopCond (cfg : OptimizationConfig) (hist : List ℚ) : Prop :=
  cfg.maxStagnation ≤ (stagState hist).2
    ∨ (10 ≤ hist.length ∧ last10Range hist < cfg.convergenceThreshold)

instance (cfg : OptimizationConfig) (hist : List ℚ) : Decidable (claimedStopCond cfg hist) := by
  unfold claimedStopCond; infer_instance

/-! ### Concrete instances used by witnesses and counterexamples -/

/-- A geometry oracle describing a comfortably contained, conflict-free
placement situation (used by concrete runs). -/
def okOracle : GeomOracle :=
  { containsFootprint := fun _ => true
  , boundaryIntersects := fun _ => true
  , boundaryDistance := fun _ => 100
  , exclusionIntersects := fun _ => false
  , footprintDistance := fun _ _ => 100
  , footprintsIntersect := fun _ _ => false
  , buildableContains := fun _ => true
  , pointDist := fun _ _ => 0
  , sqrtQ := fun _ => 0 }

/-- A 10 by 10 site without exclusion zones or slope data. -/
def plainSite : Site :=
  { minX := 0, minY := 0, maxX := 10, maxY := 10
  , hasExclusions := false, slopeData := none, gridResolution := 1
  , centroid := (5, 5), entryPoint := (5, 5) }

/-- One non-rotating BESS-type asset instance. -/
def oneAsset : AssetDefinition :=
  { assetType := .bess
  , dimensions := { width := 5, length := 8, rotationAllowed := false, rotationStep := 90 }
  , constraints := { minSetback := 10, maxSlope := 5, requiresRoadAccess := false
                   , minDistanceToSame := 0, avoidExclusionZones := true }
  , quantity := 1
  , priority := 10 }

/-- A small `MIN_EARTHWORK` configuration (population 3 — the smallest size
whose tournament selection of 3 distinct members cannot raise — elite 1,
high stagnation allowance, threshold 1). -/
def smallCfg (gens : ℕ) : OptimizationConfig :=
  { objective := .minEarthwork
  , objectiveWeights := defaultObjectiveWeights
  , populationSize := 3
  , generations := gens
  , mutationRate := 0
  , crossoverRate := 4/5
  , eliteSize := 1
  , convergenceThreshold := 1
  , maxStagnation := 100 }

/-- Draw streams under which no crossover fires (`u = 1 ≥ rate`) and no
mutation fires (`rate = 0`). -/
def calmRand : RunRand :=
  { initG := fun _ _ => 0
  , initN := fun _ => 0
  , tournament := fun _ _ => [0]
  , crossU := fun _ _ => 1
  , crossPt := fun _ _ => (0, 1)
  , mutU := fun _ _ _ => 1
  , mutN := fun _ _ _ => 0
  , surv := fun _ _ => [0] }

/-- Environment of the constant-fitness 20-generation run. -/
def envRun20 : Env :=
  { cfg := smallCfg 20, site := plainSite, oracle := okOracle, assets := [oneAsset] }

/-- Environment of the constant-fitness 3-generation run. -/
def envRun3 : Env :=
  { cfg := smallCfg 3, site := plainSite, oracle := okOracle, assets := [oneAsset] }


/-- Configuration of the zero-asset run (population 4, default crossover
rate 0.8, default balanced objective). -/
def zeroAssetCfg : OptimizationConfig :=
  { objective := .balanced
  , objectiveWeights := defaultObjectiveWeights
  , populationSize := 4
  , generations := 5
  , mutationRate := 1/10
  , crossoverRate := 4/5
  , eliteSize := 1
  , convergenceThreshold := 1/1000
  , maxStagnation := 30 }

/-- Environment requesting zero assets: the asset list is empty, so
`total_assets = 0` and `gene_length = 0`. -/
def zeroAssetEnv : Env :=
  { cfg := zeroAssetCfg, site := plainSite, oracle := okOracle, assets := [] }

/-- Draw streams whose first crossover-rate draw is `0 < 0.8`, so the first
parent pair undergoes crossover. -/
def eagerRand : RunRand :=
  { initG := fun _ _ => 0
  , initN := fun _ => 0
  , tournament := fun _ _ => [0]
  , crossU := fun _ _ => 0
  , crossPt := fun _ _ => (0, 1)
  , mutU := fun _ _ _ => 1
  , mutN := fun _ _ _ => 0
  , surv := fun _ _ => [0] }


/-- The `OptimizationConfig()` defaults of `models.py`. -/
def defaultCfg : OptimizationConfig :=
  { objective := .balanced
  , objectiveWeights := defaultObjectiveWeights
  , populationSize := 100
  , generations := 200
  , mutationRate := 1/10
  , crossoverRate := 4/5
  , eliteSize := 10
  , convergenceThreshold := 1/1000
  , maxStagnation := 30 }

/-- Environment of the constant-fitness 4-generation run. -/
def envRun4 : Env :=
  { cfg := smallCfg 4, site := plainSite, oracle := okOracle, assets := [oneAsset] }

/-- Default config with the `MIN_EARTHWORK` objective. -/
def minEarthworkCfg : OptimizationConfig :=
  { defaultCfg with objective := .minEarthwork }

/-- A score dict with the worst possible earthwork score. -/
def steepScores : Scores :=
  { earthwork := 1, cableLength := 1/2, roadLength := 1/2, compactness := 1, capacity := 1 }

/-- A substation asset of priority 9. -/
def subAsset : AssetDefinition :=
  { assetType := .substation
  , dimensions := { width := 40, length := 60, rotationAllowed := true, rotationStep := 90 }
  , constraints := { minSetback := 50, maxSlope := 1, requiresRoadAccess := true
                   , minDistanceToSame := 0, avoidExclusionZones := true }
  , quantity := 1
  , priority := 9 }

/-- A parking asset of priority 5. -/
def parkAsset : AssetDefinition :=
  { assetType := .parking
  , dimensions := { width := 30, length := 50, rotationAllowed := true, rotationStep := 90 }
  , constraints := { minSetback := 10, maxSlope := 5, requiresRoadAccess := true
                   , minDistanceToSame := 0, avoidExclusionZones := true }
  , quantity := 1
  , priority := 5 }

/-- A 200 by 60 site with its bounding box at `(100, 200)`. -/
def wideSite : Site :=
  { minX := 100, minY := 200, maxX := 300, maxY := 260
  , hasExclusions := false, slopeData := none, gridResolution := 1
  , centroid := (200, 230), entryPoint := (200, 230) }

/-- A site carrying a 2 by 3 slope raster of constant 20-degree slope at
resolution 2. -/
def slopedSite : Site :=
  { minX := 0, minY := 0, maxX := 6, maxY := 4
  , hasExclusions := false
  , slopeData := some { rows := 2, cols := 3, data := fun _ _ => 20 }
  , gridResolution := 2
  , centroid := (3, 2), entryPoint := (3, 2) }

/-- A placement decoded far outside the slope raster of `slopedSite`. -/
def farPlacement : Placement :=
  { assetType := .bess, instanceNum := 0, defn := oneAsset, pos := (100, 0), rotation := 0 }

/-- A placement inside the slope raster of `slopedSite`. -/
def nearPlacement : Placement :=
  { assetType := .bess, instanceNum := 0, defn := oneAsset, pos := (1, 1), rotation := 0 }

/-- Environment whose every layout is valid (used for the validity-bonus
witness). -/
def validEnv : Env :=
  { cfg := defaultCfg, site := plainSite, oracle := okOracle, assets := [oneAsset] }


/-! ### Helper lemmas: folded maxima -/

theorem qmax_eq_max (a b : ℚ) : qmax a b = max a b := (max_def a b).symm

theorem qmin_eq_min (a b : ℚ) : qmin a b = min a b := (min_def a b).symm

theorem foldl_qmax_eq_foldl_max (l : List ℚ) (a : ℚ) : l.foldl qmax a = l.foldl max a := by
  induction l generalizing a with
  | nil => rfl
  | cons x t ih => rw [List.foldl_cons, List.foldl_cons, qmax_eq_max, ih]

theorem le_foldl_max (l : List ℚ) (a : ℚ) : a ≤ l.foldl max a := by
  induction l generalizing a with
  | nil => exact le_refl a
  | cons x t ih => exact le_trans (le_max_left a x) (ih (max a x))

theorem foldl_max_of_mem {x : ℚ} {l : List ℚ} (a : ℚ) (h : x ∈ l) : x ≤ l.foldl max a := by
  induction l generalizing a with
  | nil => cases h
  | cons y t ih =>
    rcases List.mem_cons.mp h with rfl | hx
    · exact le_trans (le_max_right a x) (le_foldl_max t (max a x))
    · exact ih (max a y) hx

theorem foldl_max_cases (l : List ℚ) (a : ℚ) : l.foldl max a = a ∨ l.foldl max a ∈ l := by
  induction l generalizing a with
  | nil => exact Or.inl rfl
  | cons x t ih =>
    rcases ih (max a x) with h | h
    · rcases le_total a x with hax | hxa
      · right; rw [List.foldl_cons, h, max_eq_right hax]; exact List.mem_cons_self x t
      · left; rw [List.foldl_cons, h, max_eq_left hxa]
    · right; exact List.mem_cons_of_mem x h

theorem le_pyMax {x : ℚ} {l : List ℚ} (h : x ∈ l) : x ≤ pyMax l := by
  cases l with
  | nil => cases h
  | cons a t =>
    have hdef : pyMax (a :: t) = t.foldl max a := foldl_qmax_eq_foldl_max t a
    rw [hdef]
    rcases List.mem_cons.mp h with rfl | hx
    · exact le_foldl_max t x
    · exact foldl_max_of_mem a hx

theorem pyMax_mem {l : List ℚ} (h : l ≠ []) : pyMax l ∈ l := by
  cases l with
  | nil => exact absurd rfl h
  | cons a t =>
    have hdef : pyMax (a :: t) = t.foldl max a := foldl_qmax_eq_foldl_max t a
    rcases foldl_max_cases t a with h1 | h1
    · rw [hdef, h1]; exact List.mem_cons_self a t
    · rw [hdef]; exact List.mem_cons_of_mem a h1

/-! ### Helper lemmas: the stable descending sort -/

theorem insertByDesc_cons_pos {α β : Type} [LinearOrder β] (key : α → β) (a b : α)
    (l : List α) (h : key b ≤ key a) : insertByDesc key a (b :: l) = a :: b :: l := by
  simp [insertByDesc, h]

theorem insertByDesc_cons_neg {α β : Type} [LinearOrder β] (key : α → β) (a b : α)
    (l : List α) (h : ¬ key b ≤ key a) :
    insertByDesc key a (b :: l) = b :: insertByDesc key a l := by
  simp [insertByDesc, h]

theorem mem_insertByDesc {α β : Type} [LinearOrder β] (key : α → β) (a x : α) :
    ∀ l : List α, (x ∈ insertByDesc key a l ↔ x = a ∨ x ∈ l)
  | [] => by simp [insertByDesc]
  | b :: l => by
    by_cases h : key b ≤ key a
    · simp [insertByDesc, h]
    · simp only [insertByDesc, if_neg h, List.mem_cons, mem_insertByDesc key a x l]
      tauto

theorem length_insertByDesc {α β : Type} [LinearOrder β] (key : α → β) (a : α) :
    ∀ l : List α, (insertByDesc key a l).length = l.length + 1
  | [] => rfl
  | b :: l => by
    by_cases h : key b ≤ key a
    · simp [insertByDesc, h]
    · simp [insertByDesc, h, length_insertByDesc key a l]

theorem length_sortByDesc {α β : Type} [LinearOrder β] (key : α → β) :
    ∀ l : List α, (sortByDesc key l).length = l.length
  | [] => rfl
  | a :: l => by
    simp [sortByDesc, length_insertByDesc, length_sortByDesc key l]

theorem mem_sortByDesc {α β : Type} [LinearOrder β] (key : α → β) (x : α) :
    ∀ l : List α, (x ∈ sortByDesc key l ↔ x ∈ l)
  | [] => Iff.rfl
  | a :: l => by
    simp only [sortByDesc, mem_insertByDesc, List.mem_cons, mem_sortByDesc key x l]

theorem pairwise_insertByDesc {α β : Type} [LinearOrder β] (key : α → β) (a : α) :
    ∀ l : List α, List.Pairwise (fun x y => key y ≤ key x) l →
      List.Pairwise (fun x y => key y ≤ key x) (insertByDesc key a l)
  | [], _ => List.pairwise_singleton _ a
  | b :: l, hp => by
    rcases List.pairwise_cons.mp hp with ⟨hb, hl⟩
    by_cases h : key b ≤ key a
    · rw [insertByDesc_cons_pos key a b l h]
      refine List.pairwise_cons.mpr ⟨?_, hp⟩
      intro y hy
      rcases List.mem_cons.mp hy with rfl | hy
      · exact h
      · exact le_trans (hb y hy) h
    · rw [insertByDesc_cons_neg key a b l h]
      refine List.pairwise_cons.mpr ⟨?_, pairwise_insertByDesc key a l hl⟩
      intro y hy
      rcases (mem_insertByDesc key a y l).mp hy with rfl | hy
      · exact le_of_lt (lt_of_not_le h)
      · exact hb y hy

theorem pairwise_sortByDesc {α β : Type} [LinearOrder β] (key : α → β) :
    ∀ l : List α, List.Pairwise (fun x y => key y ≤ key x) (sortByDesc key l)
  | [] => List.Pairwise.nil
  | a :: l => pairwise_insertByDesc key a _ (pairwise_sortByDesc key l)

theorem filter_insertByDesc {α β : Type} [LinearOrder β] (key : α → β) (p : β) (a : α) :
    ∀ l : List α,
      (insertByDesc key a l).filter (fun x => decide (key x = p)) =
        (if key a = p then [a] else []) ++ l.filter (fun x => decide (key x = p))
  | [] => by by_cases h : key a = p <;> simp [insertByDesc, List.filter, h]
  | b :: l => by
    by_cases hba : key b ≤ key a
    · rw [insertByDesc_cons_pos key a b l hba]
      by_cases ha : key a = p <;> simp [List.filter_cons, ha]
    · rw [insertByDesc_cons_neg key a b l hba]
      have hab : key a < key b := lt_of_not_le hba
      rw [List.filter_cons, List.filter_cons, filter_insertByDesc key p a l]
      by_cases hb : key b = p
      · have ha : ¬ key a = p := by
          intro h; rw [h, ← hb] at hab; exact lt_irrefl _ hab
        simp [hb, ha]
      · by_cases ha : key a = p <;> simp [hb, ha]

theorem filter_sortByDesc {α β : Type} [LinearOrder β] (key : α → β) (p : β) :
    ∀ l : List α,
      (sortByDesc key l).filter (fun x => decide (key x = p)) =
        l.filter (fun x => decide (key x = p))
  | [] => rfl
  | a :: l => by
    rw [sortByDesc, filter_insertByDesc key p a, filter_sortByDesc key p l, List.filter_cons]
    by_cases h : key a = p <;> simp [h]

/-! ### Helper lemmas: tournament winners and elitist survivors -/

theorem foldl_maxBy_fitness (t : List Individual) :
    ∀ a : Individual,
      (t.foldl (fun best x => if best.fitness < x.fitness then x else best) a).fitness =
        (t.map (fun i => i.fitness)).foldl max a.fitness := by
  induction t with
  | nil => intro a; rfl
  | cons x t ih =>
    intro a
    rw [List.foldl_cons, List.map_cons, List.foldl_cons, ih]
    by_cases h : a.fitness < x.fitness
    · rw [if_pos h, max_eq_right (le_of_lt h)]
    · rw [if_neg h, max_eq_left (le_of_not_lt h)]

theorem maxByFitness_fitness (d : Individual) {l : List Individual} (h : l ≠ []) :
    (maxByFitness d l).fitness = bestFitness l := by
  cases l with
  | nil => exact absurd rfl h
  | cons a t =>
    have h1 : maxByFitness d (a :: t) =
        t.foldl (fun best x => if best.fitness < x.fitness then x else best) a := rfl
    have h2 : bestFitness (a :: t) = (t.map (fun i => i.fitness)).foldl max a.fitness :=
      foldl_qmax_eq_foldl_max (t.map (fun i : Individual => i.fitness)) a.fitness
    rw [h1, h2, foldl_maxBy_fitness t a]

theorem selectSurvivors_cons (cfg : OptimizationConfig) (pop off : List Individual)
    (draws : ℕ → List ℕ) (hd : Individual) (tl : List Individual)
    (he : 1 ≤ cfg.eliteSize) (hp : 1 ≤ cfg.populationSize)
    (hht : sortByDesc (fun i : Individual => i.fitness) (pop ++ off) = hd :: tl) :
    ∃ rest, selectSurvivors cfg pop off draws = hd :: rest := by
  obtain ⟨e, he'⟩ := Nat.exists_eq_add_of_le he
  obtain ⟨p, hp'⟩ := Nat.exists_eq_add_of_le hp
  simp only [selectSurvivors, hht]
  rw [he', hp']
  rw [show 1 + e = e + 1 from Nat.add_comm 1 e, show 1 + p = p + 1 from Nat.add_comm 1 p]
  rw [List.take_succ_cons, List.cons_append, List.take_succ_cons]
  exact ⟨_, rfl⟩

theorem selectSurvivors_spec (cfg : OptimizationConfig) (pop off : List Individual)
    (draws : ℕ → List ℕ) (he : 1 ≤ cfg.eliteSize) (hp : 1 ≤ cfg.populationSize)
    (hne : pop ≠ []) :
    selectSurvivors cfg pop off draws ≠ [] ∧
      bestFitness pop ≤ bestFitness (selectSurvivors cfg pop off draws) := by
  have hlen : (sortByDesc (fun i : Individual => i.fitness) (pop ++ off)).length =
      pop.length + off.length := by
    rw [length_sortByDesc, List.length_append]
  obtain ⟨hd, tl, hht⟩ : ∃ hd tl,
      sortByDesc (fun i : Individual => i.fitness) (pop ++ off) = hd :: tl := by
    cases hcomb : sortByDesc (fun i : Individual => i.fitness) (pop ++ off) with
    | nil =>
      exfalso
      rw [hcomb] at hlen
      simp only [List.length_nil] at hlen
      have hpl : pop.length = 0 := by omega
      exact hne (List.length_eq_zero.mp hpl)
    | cons a b => exact ⟨a, b, rfl⟩
  obtain ⟨rest, hrest⟩ := selectSurvivors_cons cfg pop off draws hd tl he hp hht
  have hdom : ∀ m ∈ hd :: tl, m.fitness ≤ hd.fitness := by
    have hpw := pairwise_sortByDesc (fun i : Individual => i.fitness) (pop ++ off)
    rw [hht] at hpw
    intro m hm
    rcases List.mem_cons.mp hm with rfl | hm
    · exact le_refl _
    · exact (List.pairwise_cons.mp hpw).1 m hm
  constructor
  · rw [hrest]; exact List.cons_ne_nil hd rest
  · have hmapne : pop.map (fun i => i.fitness) ≠ [] := by
      intro hmn
      exact hne (List.map_eq_nil_iff.mp hmn)
    obtain ⟨m, hm, hmf⟩ := List.mem_map.mp (pyMax_mem hmapne)
    have hmcomb : m ∈ hd :: tl := by
      rw [← hht]
      exact (mem_sortByDesc (fun i : Individual => i.fitness) m (pop ++ off)).mpr
        (List.mem_append_left off hm)
    have h1 : bestFitness pop ≤ hd.fitness := by
      rw [bestFitness, ← hmf]
      exact hdom m hmcomb
    have h2 : hd.fitness ≤ bestFitness (selectSurvivors cfg pop off draws) := by
      rw [hrest]
      exact le_pyMax (List.mem_map_of_mem (fun i => i.fitness) (List.mem_cons_self hd rest))
    exact le_trans h1 h2

theorem gaStep_ok (E : Env) (R : RunRand) (g : ℕ) (pop pop2 : List Individual)
    (h : gaStep E R g pop = .ok pop2) :
    ∃ off, pop2 = selectSurvivors E.cfg pop off (R.surv g) := by
  simp only [gaStep] at h
  cases hs : selectParents pop (R.tournament g) with
  | error e => rw [hs] at h; cases h
  | ok parents =>
    rw [hs] at h
    simp only [] at h
    cases hc : crossover E.cfg.crossoverRate (3 * totalAssets E.assets) parents
        (R.crossU g) (R.crossPt g) with
    | error e => rw [hc] at h; cases h
    | ok offGenes =>
      rw [hc] at h
      simp only [Except.ok.injEq] at h
      exact ⟨_, h.symm⟩

/-! ### Helper lemmas: monotone history along the generational loop -/

theorem gaLoopAux_chain (E : Env) (R : RunRand) (he : 1 ≤ E.cfg.eliteSize)
    (hp : 1 ≤ E.cfg.populationSize) :
    ∀ (fuel g : ℕ) (pop : List Individual) (hist : List ℚ) (st : Option ℚ × ℕ)
      (hist2 : List ℚ) (iters : ℕ),
      pop ≠ [] → hist.getLast? = some (bestFitness pop) → List.Chain' (· ≤ ·) hist →
      gaLoopAux E R fuel g pop hist st = .ok (hist2, iters) →
      List.Chain' (· ≤ ·) hist2 := by
  intro fuel
  induction fuel with
  | zero =>
    intro g pop hist st hist2 iters _ _ hchain hok
    simp only [gaLoopAux, Except.ok.injEq, Prod.mk.injEq] at hok
    rw [← hok.1]
    exact hchain
  | succ fuel ih =>
    intro g pop hist st hist2 iters hpop hlast hchain hok
    rw [gaLoopAux] at hok
    cases hstep : gaStep E R g pop with
    | error e => rw [hstep] at hok; cases hok
    | ok pop2 =>
      rw [hstep] at hok
      simp only [] at hok
      obtain ⟨off, hoff⟩ := gaStep_ok E R g pop pop2 hstep
      have hspec := selectSurvivors_spec E.cfg pop off (R.surv g) he hp hpop
      have hpop2 : pop2 ≠ [] := by rw [hoff]; exact hspec.1
      have hle : bestFitness pop ≤ bestFitness pop2 := by rw [hoff]; exact hspec.2
      have hcb : (maxByFitness defaultIndividual pop2).fitness = bestFitness pop2 :=
        maxByFitness_fitness defaultIndividual hpop2
      have hchain2 :
          List.Chain' (· ≤ ·) (hist ++ [(maxByFitness defaultIndividual pop2).fitness]) := by
        rw [List.chain'_append]
        refine ⟨hchain, List.chain'_singleton _, ?_⟩
        intro x hx y hy
        simp only [List.head?_cons, Option.mem_def, Option.some.injEq] at hy
        rw [hlast] at hx
        simp only [Option.mem_def, Option.some.injEq] at hx
        subst hx
        subst hy
        rw [hcb]
        exact hle
      have hlast2 :
          (hist ++ [(maxByFitness defaultIndividual pop2).fitness]).getLast? =
            some (bestFitness pop2) := by
        rw [List.getLast?_concat, hcb]
      split at hok
      · simp only [Except.ok.injEq, Prod.mk.injEq] at hok
        rw [← hok.1]
        exact hchain2
      · split at hok
        · simp only [Except.ok.injEq, Prod.mk.injEq] at hok
          rw [← hok.1]
          exact hchain2
        · exact ih (g + 1) pop2 _ _ hist2 iters hpop2 hlast2 hchain2 hok

/-! ### Helper lemmas: stop-condition bookkeeping of the loop -/

theorem stagState_append (hist : List ℚ) (x : ℚ) (h : hist ≠ []) :
    stagState (hist ++ [x]) = stagUpd (stagState hist) x := by
  cases hist with
  | nil => exact absurd rfl h
  | cons a t =>
    simp only [stagState, List.cons_append, List.drop_succ_cons, List.drop_zero,
      List.foldl_append, List.foldl_cons, List.foldl_nil]

theorem gaLoopAux_char (E : Env) (R : RunRand) :
    ∀ (fuel g : ℕ) (pop : List Individual) (hist hist2 : List ℚ) (iters : ℕ),
      hist.length = g + 1 →
      (∀ k, 0 < k → k < hist.length → ¬ gaBreakCond E.cfg (hist.take (k + 1))) →
      gaLoopAux E R fuel g pop hist (stagState hist) = .ok (hist2, iters) →
      g ≤ iters ∧ iters ≤ g + fuel ∧ hist2.length = iters + 1 ∧
        hist2.take (g + 1) = hist ∧
        (∀ k, 0 < k → k < iters → ¬ gaBreakCond E.cfg (hist2.take (k + 1))) ∧
        (iters < g + fuel → gaBreakCond E.cfg hist2) := by
  intro fuel
  induction fuel with
  | zero =>
    intro g pop hist hist2 iters hlen hpre hok
    simp only [gaLoopAux, Except.ok.injEq, Prod.mk.injEq] at hok
    obtain ⟨rfl, rfl⟩ := hok
    refine ⟨le_refl g, Nat.le_add_right g 0, hlen, ?_, ?_, ?_⟩
    · rw [← hlen]; exact List.take_length hist
    · intro k hk0 hkg
      exact hpre k hk0 (by omega)
    · intro hlt; omega
  | succ fuel ih =>
    intro g pop hist hist2 iters hlen hpre hok
    have hne : hist ≠ [] := by
      intro hn; rw [hn] at hlen; simp at hlen
    rw [gaLoopAux] at hok
    cases hstep : gaStep E R g pop with
    | error e => rw [hstep] at hok; cases hok
    | ok pop2 =>
      rw [hstep] at hok
      simp only [] at hok
      set cb := (maxByFitness defaultIndividual pop2).fitness with hcb
      have hlen' : (hist ++ [cb]).length = (g + 1) + 1 := by
        rw [List.length_append, hlen]; rfl
      have htake_full : (hist ++ [cb]).take (g + 1) = hist := by
        have h1 : (hist ++ [cb]).take hist.length = hist := by
          rw [List.take_append_of_le_length (le_refl hist.length), List.take_length]
        rw [hlen] at h1; exact h1
      have hst' : stagUpd (stagState hist) cb = stagState (hist ++ [cb]) :=
        (stagState_append hist cb hne).symm
      have hpre_small : ∀ k, 0 < k → k < hist.length →
          (hist ++ [cb]).take (k + 1) = hist.take (k + 1) := by
        intro k _ hk
        exact List.take_append_of_le_length (by omega)
      split at hok
      · rename_i hc1
        simp only [Except.ok.injEq, Prod.mk.injEq] at hok
        obtain ⟨rfl, rfl⟩ := hok
        refine ⟨Nat.le_succ g, by omega, hlen', htake_full, ?_, ?_⟩
        · intro k hk0 hkg
          rw [hpre_small k hk0 (by omega)]
          exact hpre k hk0 (by omega)
        · intro _
          exact Or.inl (by rw [← hst']; exact hc1)
      · rename_i hc1
        split at hok
        · rename_i hc2
          simp only [Except.ok.injEq, Prod.mk.injEq] at hok
          obtain ⟨rfl, rfl⟩ := hok
          refine ⟨Nat.le_succ g, by omega, hlen', htake_full, ?_, ?_⟩
          · intro k hk0 hkg
            rw [hpre_small k hk0 (by omega)]
            exact hpre k hk0 (by omega)
          · intro _
            exact Or.inr hc2
        · rename_i hc2
          rw [hst'] at hok
          have hbreak' : ¬ gaBreakCond E.cfg (hist ++ [cb]) := by
            intro hb
            rcases hb with hb | hb
            · exact hc1 (by rw [← hst'] at hb; exact hb)
            · exact hc2 hb
          have hpre' : ∀ k, 0 < k → k < (hist ++ [cb]).length →
              ¬ gaBreakCond E.cfg ((hist ++ [cb]).take (k + 1)) := by
            intro k hk0 hk
            rw [hlen'] at hk
            by_cases hkg : k < hist.length
            · rw [hpre_small k hk0 hkg]
              exact hpre k hk0 hkg
            · have hkg' : k = g + 1 := by omega
              subst hkg'
              rw [← hlen'] at *
              rw [List.take_length]
              exact hbreak'
          obtain ⟨ih1, ih2, ih3, ih4, ih5, ih6⟩ :=
            ih (g + 1) pop2 (hist ++ [cb]) hist2 iters hlen' hpre' hok
          refine ⟨by omega, by omega, ih3, ?_, ih5, fun hlt => ih6 (by omega)⟩
          have : hist2.take (g + 1) = ((hist ++ [cb]).take (g + 1)) := by
            rw [← ih4, List.take_take]
            congr 1
            omega
          rw [this, htake_full]

/-! ### Helper lemmas: slope guarding and the codec -/

theorem filter_flatten_nil {α : Type} (p : α → Bool) :
    ∀ ls : List (List α), (∀ l ∈ ls, l.filter p = []) → ls.flatten.filter p = []
  | [], _ => rfl
  | l :: ls, h => by
    rw [List.flatten_cons, List.filter_append, h l (List.mem_cons_self l ls),
      filter_flatten_nil p ls (fun x hx => h x (List.mem_cons_of_mem l hx)), List.nil_append]

theorem slopeWarns_none (site : Site) (p : Placement)
    (h : getSlopeAtPosition site p.pos = none) : slopeWarns site p = false := by
  unfold slopeWarns
  cases hsd : site.slopeData with
  | none => rfl
  | some g => rw [h]

theorem slopeViolations_eq (site : Site) (p : Placement) :
    slopeViolations site p =
      if slopeWarns site p then [⟨.warning, .slope⟩] else [] := by
  unfold slopeViolations slopeWarns
  cases hsd : site.slopeData with
  | none => rfl
  | some g =>
    cases hg : getSlopeAtPosition site p.pos with
    | none => rfl
    | some s =>
      by_cases h : p.defn.constraints.maxSlope < s <;> simp [h]

theorem placementViolations_filter_slope_eq (site : Site) (oracle : GeomOracle)
    (p : Placement) :
    (placementViolations site oracle p).filter (fun v => decide (v.rule = RuleKind.slope)) =
      if slopeWarns site p then [⟨.warning, .slope⟩] else [] := by
  unfold placementViolations
  rw [List.filter_append, List.filter_append, List.filter_append, slopeViolations_eq]
  have h1 : (boundaryViolations oracle p).filter
      (fun v => decide (v.rule = RuleKind.slope)) = [] := by
    by_cases hc : oracle.containsFootprint p <;> by_cases hb : oracle.boundaryIntersects p <;>
      simp [boundaryViolations, hc, hb]
  have h2 : (setbackViolations oracle p).filter
      (fun v => decide (v.rule = RuleKind.slope)) = [] := by
    by_cases hs : oracle.boundaryDistance p < p.defn.constraints.minSetback <;>
      simp [setbackViolations, hs]
  have h3 : (exclusionViolations site oracle p).filter
      (fun v => decide (v.rule = RuleKind.slope)) = [] := by
    unfold exclusionViolations
    split <;> simp
  rw [h1, h2, h3]
  cases h : slopeWarns site p <;> simp

theorem pairViolations_filter_slope (oracle : GeomOracle) (p1 p2 : Placement) :
    (pairViolations oracle p1 p2).filter (fun v => decide (v.rule = RuleKind.slope)) = [] := by
  unfold pairViolations
  rw [List.filter_append]
  have h1 : (if p1.assetType = p2.assetType ∧ 0 < p1.defn.constraints.minDistanceToSame
      ∧ oracle.footprintDistance p1 p2 < p1.defn.constraints.minDistanceToSame
      then [(⟨.warning, .spacing⟩ : Violation)] else []).filter
        (fun v => decide (v.rule = RuleKind.slope)) = [] := by
    split <;> simp
  have h2 : (if oracle.footprintsIntersect p1 p2
      then [(⟨.error, .overlap⟩ : Violation)] else []).filter
        (fun v => decide (v.rule = RuleKind.slope)) = [] := by
    split <;> simp
  rw [h1, h2]
  rfl

theorem placements_filter_slope_eq (site : Site) (oracle : GeomOracle) :
    ∀ ps : List Placement,
      ((ps.map (placementViolations site oracle)).flatten).filter
          (fun v => decide (v.rule = RuleKind.slope)) =
        (ps.filter (fun q => slopeWarns site q)).map
          (fun _ => (⟨.warning, .slope⟩ : Violation))
  | [] => rfl
  | q :: ps => by
    rw [List.map_cons, List.flatten_cons, List.filter_append,
      placementViolations_filter_slope_eq, placements_filter_slope_eq site oracle ps,
      List.filter_cons]
    cases h : slopeWarns site q <;> simp

theorem checkConstraints_filter_slope_eq (site : Site) (oracle : GeomOracle)
    (ps : List Placement) :
    (checkConstraints site oracle ps).filter (fun v => decide (v.rule = RuleKind.slope)) =
      (ps.filter (fun q => slopeWarns site q)).map
        (fun _ => (⟨.warning, .slope⟩ : Violation)) := by
  unfold checkConstraints
  have hpairs : ∀ l ∈ (pairsAfter ps).map (fun q => pairViolations oracle q.1 q.2),
      l.filter (fun v => decide (v.rule = RuleKind.slope)) = [] := by
    intro l hl
    obtain ⟨q, _, rfl⟩ := List.mem_map.mp hl
    exact pairViolations_filter_slope oracle q.1 q.2
  rw [List.filter_append, placements_filter_slope_eq, filter_flatten_nil _ _ hpairs,
    List.append_nil]

theorem length_flatMap_expandOne :
    ∀ l : List AssetDefinition,
      (l.flatMap expandOne).length = (l.map (fun a => a.quantity)).sum
  | [] => rfl
  | a :: l => by
    rw [List.flatMap_cons, List.length_append, List.map_cons, List.sum_cons,
      length_flatMap_expandOne l]
    simp [expandOne]

theorem length_expandAssets (assets : List AssetDefinition) :
    (expandAssets assets).length = totalAssets assets :=
  length_flatMap_expandOne (sortAssets assets)

/-! ### Claim theorems -/

unseal Rat.add Rat.mul Rat.inv Rat.sub in
/-- Claim C2: the claim states that with zero assets requested `optimize()`
short-circuits and returns an empty, trivially valid solution.  The code has
no such short-circuit: with `gene_length = 0` the first crossover event calls
`np.random.choice(0, 2, replace=False)`, which raises `ValueError`, so the
run aborts with an exception instead of returning a solution.  This theorem
evaluates the model at that failing input: an empty asset list, population 4,
crossover rate 0.8, and a draw stream whose first crossover draw fires. -/
theorem c2_zero_assets_run_raises :
    optimizeFull zeroAssetEnv eagerRand (fun _ => 0) (fun _ => 0) = .error () := by
  rfl

unseal Rat.add Rat.mul Rat.inv Rat.sub in
/-- Claim C3 (counterexample): the claim floors the *whole* expression
`combined - 0.1·violations + 0.2·bonus` at 0, but the source floors before
adding the bonus.  At the `MIN_EARTHWORK` objective with earthwork score 1
(combined score 0) and a single slope `WARNING` on a valid layout, the code
yields fitness `0.2` while the claimed formula yields `0.1`. -/
theorem c3_counterexample_floor_order :
    fitnessFromScores minEarthworkCfg steepScores [⟨.warning, .slope⟩] = 1/5 ∧
      max 0 (combinedScore minEarthworkCfg steepScores
        - (([(⟨.warning, .slope⟩ : Violation)].length : ℚ)) * (1/10) + 1/5) = 1/10 ∧
      ¬ ((1 : ℚ)/5 = 1/10) := by
  refine ⟨by decide, ?_, by norm_num⟩
  rw [← qmax_eq_max]
  decide

/-- Claim C3 (amended): for every evaluated individual the fitness equals the
objective-combined score minus 0.1 per violation, floored at 0 *before* the
0.2 validity bonus is added. -/
theorem c3_fitness_formula (cfg : OptimizationConfig) (s : Scores) (vs : List Violation) :
    fitnessFromScores cfg s vs =
      max 0 (combinedScore cfg s - (vs.length : ℚ) * (1/10)) +
        (if countErrorViolations vs = 0 then 1/5 else 0) := by
  simp only [fitnessFromScores, qmax_eq_max]
  split <;> simp

/-- Claim C4: the `is_valid` flag computed by `_evaluate_individual` is true
iff the violation list produced by `_check_constraints` on the decoded
placements contains zero `ERROR`-tagged entries; `WARNING`-tagged entries
can never make it false. -/
theorem c4_validity_iff_no_errors (E : Env) (genes : List ℚ) :
    (evaluateIndividual E genes).isValid = true ↔
      countErrorViolations
        (checkConstraints E.site E.oracle (decodeGenes E.site E.assets genes)) = 0 := by
  simp only [evaluateIndividual, decide_eq_true_eq]

/-- Claim C5: determinism.  With the numpy RNG seeded, every random draw of
a run is a function of the seed (the `RunRand` record); two runs with the
same seed, site, assets and configuration produce identical convergence
histories even when the remaining ambient effects — wall-clock readings and
uuid generation — differ between the runs. -/
theorem c5_determinism_same_seed (streamOf : ℕ → RunRand) (seed : ℕ) (E : Env)
    (clock1 clock2 : ℕ → ℚ) (uuid1 uuid2 : ℕ → ℕ) :
    (optimizeFull E (streamOf seed) clock1 uuid1).map ResultModel.history =
      (optimizeFull E (streamOf seed) clock2 uuid2).map ResultModel.history := by
  simp only [optimizeFull]
  cases hG : gaLoopAux E (streamOf seed) E.cfg.generations 0
      (initPopulation E (streamOf seed))
      [bestFitness (initPopulation E (streamOf seed))] (none, 0) with
  | error e => rfl
  | ok hi => rfl

/-- Claim C9: every individual whose evaluation marks it valid receives a
fitness of at least 0.2, because the 0-floor is applied to the penalized
combined score before the 0.2 validity bonus is added. -/
theorem c9_valid_fitness_floor (E : Env) (genes : List ℚ)
    (h : (evaluateIndividual E genes).isValid = true) :
    1/5 ≤ (evaluateIndividual E genes).fitness := by
  simp only [evaluateIndividual, decide_eq_true_eq] at h ⊢
  simp only [fitnessFromScores, qmax_eq_max, if_pos h]
  have h0 : (0 : ℚ) ≤ max 0 (combinedScore E.cfg
      (calculateObjectives E.site E.oracle (decodeGenes E.site E.assets genes))
      - ((checkConstraints E.site E.oracle (decodeGenes E.site E.assets genes)).length : ℚ)
        * (1/10)) := le_max_left 0 _
  linarith

unseal Rat.add Rat.mul Rat.inv Rat.sub in
/-- Witness for C9 at a concrete valid evaluation. -/
theorem c9_witness :
    (evaluateIndividual validEnv [1/2, 1/2, 0]).isValid = true ∧
      1/5 ≤ (evaluateIndividual validEnv [1/2, 1/2, 0]).fitness := by
  refine ⟨by decide, c9_valid_fitness_floor validEnv [1/2, 1/2, 0] (by decide)⟩

/-- Claim C1: elitism monotonicity.  For every completed run with at least
one elite slot and a positive population size, the recorded best-fitness
history is non-decreasing, because `_select_survivors` pools the previous
population with the offspring and unconditionally keeps the top
`elite_size` individuals by fitness. -/
theorem c1_convergence_history_monotone (E : Env) (R : RunRand) (clock : ℕ → ℚ)
    (uuidGen : ℕ → ℕ) (r : ResultModel) (he : 1 ≤ E.cfg.eliteSize)
    (hp : 1 ≤ E.cfg.populationSize)
    (hok : optimizeFull E R clock uuidGen = .ok r) :
    List.Chain' (· ≤ ·) r.history := by
  simp only [optimizeFull] at hok
  cases hG : gaLoopAux E R E.cfg.generations 0 (initPopulation E R)
      [bestFitness (initPopulation E R)] (none, 0) with
  | error e => rw [hG] at hok; cases hok
  | ok hi =>
    rw [hG] at hok
    simp only [Except.ok.injEq] at hok
    have hpop : initPopulation E R ≠ [] := by
      simp [initPopulation]
    have hhist : r.history = hi.1 := by rw [← hok]
    rw [hhist]
    exact gaLoopAux_chain E R he hp E.cfg.generations 0 (initPopulation E R)
      [bestFitness (initPopulation E R)] (none, 0) hi.1 hi.2 hpop rfl
      (List.chain'_singleton _) hG

unseal Rat.add Rat.mul Rat.inv Rat.sub in
/-- Witness for C1: the 4-generation constant-fitness run records the
non-decreasing history `[0.7, 0.7, 0.7, 0.7, 0.7]`. -/
theorem c1_witness : List.Chain' (· ≤ ·) (List.replicate 5 ((7 : ℚ)/10)) :=
  c1_convergence_history_monotone envRun4 calmRand (fun _ => 0) (fun _ => 0)
    { history := List.replicate 5 ((7 : ℚ)/10), totalGenerations := 4
    , totalTimeMs := 0, solutionId := 0 }
    (by decide) (by decide) (by rfl)

/-- Claim C6 (amended): the generational loop always terminates — it
executes at most `generations` iterations and records one history entry per
iteration plus the initial one — and it stops exactly at the first
generation boundary where the stagnation count reaches `max_stagnation` or
(once *more than* 10 best-fitness values have been recorded) the range of
the last 10 recorded values falls below `convergence_threshold`; if no
boundary satisfies either condition the loop runs to the generation cap.
(The original claim lacks the "more than 10 recorded" guard.) -/
theorem c6_loop_termination (E : Env) (R : RunRand) (clock : ℕ → ℚ)
    (uuidGen : ℕ → ℕ) (r : ResultModel)
    (hok : optimizeFull E R clock uuidGen = .ok r) :
    r.totalGenerations ≤ E.cfg.generations ∧
      r.history.length = r.totalGenerations + 1 ∧
      (∀ k, 0 < k → k < r.totalGenerations →
        ¬ gaBreakCond E.cfg (r.history.take (k + 1))) ∧
      (r.totalGenerations < E.cfg.generations → gaBreakCond E.cfg r.history) := by
  simp only [optimizeFull] at hok
  cases hG : gaLoopAux E R E.cfg.generations 0 (initPopulation E R)
      [bestFitness (initPopulation E R)] (none, 0) with
  | error e => rw [hG] at hok; cases hok
  | ok hi =>
    rw [hG] at hok
    simp only [Except.ok.injEq] at hok
    have hhist : r.history = hi.1 := by rw [← hok]
    have hgens : r.totalGenerations = hi.2 := by rw [← hok]
    obtain ⟨_, h2, h3, _, h5, h6⟩ :=
      gaLoopAux_char E R E.cfg.generations 0 (initPopulation E R)
        [bestFitness (initPopulation E R)] hi.1 hi.2 rfl
        (by intro k hk0 hk1; simp at hk1; omega) hG
    rw [hhist, hgens]
    exact ⟨by omega, h3, h5, fun hlt => h6 (by omega)⟩

unseal Rat.add Rat.mul Rat.inv Rat.sub in
/-- Counterexample for C6 as stated: in the constant-fitness 20-generation
run, after 9 iterations exactly 10 best values are recorded, their range is
0, which is below the threshold 1, and neither the cap nor stagnation
applies — so the claimed stop condition already holds — yet the loop runs a
10th iteration, because the source checks convergence only once *more than*
10 values are recorded (`len(convergence_history) > 10`). -/
theorem c6_counterexample_convergence_gate :
    optimizeFull envRun20 calmRand (fun _ => 0) (fun _ => 0) =
      .ok { history := List.replicate 11 ((7 : ℚ)/10), totalGenerations := 10
          , totalTimeMs := 0, solutionId := 0 } ∧
      claimedStopCond (smallCfg 20) ((List.replicate 11 ((7 : ℚ)/10)).take 10) ∧
      ¬ gaBreakCond (smallCfg 20) ((List.replicate 11 ((7 : ℚ)/10)).take 10) := by
  refine ⟨by rfl, by decide, by decide⟩

unseal Rat.add Rat.mul Rat.inv Rat.sub in
/-- Witness for C6: the 3-generation constant-fitness run stops at the cap,
records 4 history entries, and at its first inner boundary the source's stop
condition indeed does not hold. -/
theorem c6_witness :
    (List.replicate 4 ((7 : ℚ)/10)).length = 3 + 1 ∧
      ¬ gaBreakCond (smallCfg 3) ((List.replicate 4 ((7 : ℚ)/10)).take 2) := by
  have h := c6_loop_termination envRun3 calmRand (fun _ => 0) (fun _ => 0)
    { history := List.replicate 4 ((7 : ℚ)/10), totalGenerations := 3
    , totalTimeMs := 0, solutionId := 0 } (by rfl)
  exact ⟨h.2.1, h.2.2.1 1 (by decide) (by decide)⟩

/-- Claim C7: rotation decoding is always quantized.  Disallowed rotation
decodes to exactly 0; when the rotation step divides 360 (`step * k = 360`)
and the gene is nonnegative, the decoded rotation equals
`(⌊gene * steps⌋ mod steps) * step`; and for `rotation_step = 90` every
decoded rotation lies in `{0, 90, 180, 270}` for any gene in `[0, 1]`,
including gene value 1. -/
theorem c7_rotation_quantized (step r : ℚ) (k : ℕ) :
    decodeRotation false step r = 0 ∧
      (0 < k → step * (k : ℚ) = 360 → 0 ≤ r →
        decodeRotation true step r = ((⌊r * (k : ℚ)⌋ % (k : ℤ) : ℤ) : ℚ) * step) ∧
      (0 ≤ r → r ≤ 1 →
        (decodeRotation true 90 r = 0 ∨ decodeRotation true 90 r = 90 ∨
          decodeRotation true 90 r = 180 ∨ decodeRotation true 90 r = 270)) := by
  refine ⟨by simp [decodeRotation], ?_, ?_⟩
  · intro hk hstep hr
    have hstep0 : step ≠ 0 := by
      intro h0
      rw [h0, zero_mul] at hstep
      norm_num at hstep
    have h360 : (360 : ℚ) / step = (k : ℚ) := by
      rw [div_eq_iff hstep0, mul_comm]
      exact hstep.symm
    have hpk : pyInt ((360 : ℚ) / step) = (k : ℤ) := by
      rw [h360, pyInt, if_pos (by positivity)]
      exact Int.floor_natCast k
    have hfl : pyInt (r * ((k : ℤ) : ℚ)) = ⌊r * (k : ℚ)⌋ := by
      rw [pyInt, if_pos (by positivity)]
      norm_cast
    simp only [decodeRotation, if_pos rfl, hpk, hfl, if_true]
  · intro h0 h1
    have h4 : pyInt ((360 : ℚ) / 90) = 4 := by
      norm_num [pyInt]
    have hfl : pyInt (r * ((4 : ℤ) : ℚ)) = ⌊r * (4 : ℚ)⌋ := by
      rw [pyInt, if_pos (by positivity)]
      norm_cast
    simp only [decodeRotation, if_pos rfl, h4, hfl]
    have hlow : 0 ≤ ⌊r * (4 : ℚ)⌋ := Int.floor_nonneg.mpr (by positivity)
    have hmod0 : 0 ≤ ⌊r * (4 : ℚ)⌋ % 4 := Int.emod_nonneg _ (by norm_num)
    have hmod4 : ⌊r * (4 : ℚ)⌋ % 4 < 4 := Int.emod_lt_of_pos _ (by norm_num)
    set m := ⌊r * (4 : ℚ)⌋ % 4 with hm
    interval_cases m <;> norm_num

/-- Claim C8: position decoding.  For a gene vector of length
`3 * total_assets`, decoding yields one placement per expanded asset
instance; the `i`-th instance consumes exactly genes `3i`, `3i+1`, `3i+2` —
its position is `(min_x + gene(3i) * site_width, min_y + gene(3i+1) *
site_height)` over the boundary's axis-aligned bounding box, and its
rotation is the quantization of gene `3i+2` — and the instance order is the
stable sort of the assets by descending priority (sorted, with equal
priorities kept in declaration order). -/
theorem c8_position_decoding (site : Site) (assets : List AssetDefinition)
    (genes : List ℚ) (i : ℕ) (hlen : genes.length = 3 * totalAssets assets)
    (hi : i < totalAssets assets) :
    (decodeGenes site assets genes).length = totalAssets assets ∧
      ((decodeGenes site assets genes).getD i defaultPlacement).pos =
        (site.minX + genes.getD (3 * i) 0 * siteWidth site,
         site.minY + genes.getD (3 * i + 1) 0 * siteHeight site) ∧
      ((decodeGenes site assets genes).getD i defaultPlacement).rotation =
        decodeRotation
          ((expandAssets assets).getD i (0, defaultAssetDef)).2.dimensions.rotationAllowed
          ((expandAssets assets).getD i (0, defaultAssetDef)).2.dimensions.rotationStep
          (genes.getD (3 * i + 2) 0) ∧
      List.Pairwise (fun a b => b.priority ≤ a.priority) (sortAssets assets) ∧
      ∀ p : ℤ, (sortAssets assets).filter (fun a => decide (a.priority = p)) =
        assets.filter (fun a => decide (a.priority = p)) := by
  have hilen : i < (expandAssets assets).length := by
    rw [length_expandAssets]
    exact hi
  obtain ⟨x, hx⟩ : ∃ x, (expandAssets assets)[i]? = some x :=
    ⟨_, List.getElem?_eq_getElem hilen⟩
  have hgetD : (expandAssets assets).getD i (0, defaultAssetDef) = x := by
    rw [List.getD_eq_getElem?_getD, hx]
    rfl
  have hdget : (decodeGenes site assets genes).getD i defaultPlacement =
      { assetType := x.2.assetType
      , instanceNum := x.1
      , defn := x.2
      , pos := (site.minX + genes.getD (3 * i) 0 * siteWidth site,
                site.minY + genes.getD (3 * i + 1) 0 * siteHeight site)
      , rotation := decodeRotation x.2.dimensions.rotationAllowed
          x.2.dimensions.rotationStep (genes.getD (3 * i + 2) 0) } := by
    unfold decodeGenes
    rw [List.getD_eq_getElem?_getD, List.getElem?_map, List.getElem?_enum, hx]
    rfl
  refine ⟨?_, ?_, ?_, ?_, ?_⟩
  · unfold decodeGenes
    rw [List.length_map, List.enum_length, length_expandAssets]
  · rw [hdget]
  · rw [hdget, hgetD]
  · exact pairwise_sortByDesc (fun a => a.priority) assets
  · intro p
    exact filter_sortByDesc (fun a => a.priority) p assets

unseal Rat.add Rat.mul Rat.inv Rat.sub in
/-- Witness for C8 on a two-asset site: the higher-priority substation is
decoded first, and instance 1 (the parking asset) reads genes 3..5, landing
at `(100 + 0.4 * 200, 200 + 0.5 * 60) = (180, 230)`. -/
theorem c8_witness :
    ((decodeGenes wideSite [parkAsset, subAsset]
        [1/10, 2/10, 3/10, 4/10, 5/10, 6/10]).getD 1 defaultPlacement).pos = (180, 230) ∧
      (decodeGenes wideSite [parkAsset, subAsset]
        [1/10, 2/10, 3/10, 4/10, 5/10, 6/10]).length = 2 := by
  obtain ⟨h1, h2, _, _, _⟩ := c8_position_decoding wideSite [parkAsset, subAsset]
    [1/10, 2/10, 3/10, 4/10, 5/10, 6/10] 1 (by decide) (by decide)
  refine ⟨?_, by rw [h1]; decide⟩
  rw [h2]
  decide

/-- Claim C10: slope sampling is totally guarded.  A position whose computed
raster cell lies outside the slope array yields `None` instead of an
out-of-range read; in every layout — mixed in-grid and out-of-grid
placements included — the slope `WARNING`s of the constraint check are
exactly one per placement for which the slope rule fires, and a placement
sampling to `None` never fires the rule, so a placement decoded outside the
slope grid never produces a slope `WARNING`; and a placement whose sample is
`None` does not contribute to the earthwork average. -/
theorem c10_slope_guard (site : Site) (grid : SlopeGrid) (pos : ℚ × ℚ)
    (oracle : GeomOracle) (ps : List Placement) (p : Placement) :
    (site.slopeData = some grid →
      ¬ slopeInBounds grid (slopeRow site pos) (slopeCol site pos) →
      getSlopeAtPosition site pos = none) ∧
      ((checkConstraints site oracle ps).filter
          (fun v => decide (v.rule = RuleKind.slope)) =
        (ps.filter (fun q => slopeWarns site q)).map
          (fun _ => (⟨.warning, .slope⟩ : Violation))) ∧
      (getSlopeAtPosition site p.pos = none → slopeWarns site p = false) ∧
      (getSlopeAtPosition site p.pos = none →
        earthworkScore site (p :: ps) = earthworkScore site ps) := by
  refine ⟨?_, checkConstraints_filter_slope_eq site oracle ps,
    slopeWarns_none site p, ?_⟩
  · intro hsd hnb
    unfold getSlopeAtPosition
    rw [hsd]
    exact if_neg hnb
  · intro hnone
    unfold earthworkScore
    cases hsd : site.slopeData with
    | none => rfl
    | some g =>
      rw [List.filterMap_cons, hnone]

unseal Rat.add Rat.mul Rat.inv Rat.sub in
/-- Witness for C10 on a mixed layout: position `(100, 0)` maps to raster
column 50, far outside the 2-by-3 raster, samples to `None` and never fires
the slope rule, while the other placement of the layout lies in-grid; the
out-of-grid placement contributes nothing to the earthwork average. -/
theorem c10_witness :
    getSlopeAtPosition slopedSite (100, 0) = none ∧
      slopeWarns slopedSite farPlacement = false ∧
      earthworkScore slopedSite [farPlacement, nearPlacement] =
        earthworkScore slopedSite [nearPlacement] := by
  have h := c10_slope_guard slopedSite
    { rows := 2, cols := 3, data := fun _ _ => 20 } (100, 0) okOracle
    [nearPlacement] farPlacement
  exact ⟨h.1 rfl (by decide), h.2.2.1 (by decide), h.2.2.2 (by decide)⟩

/-- Witness for C7: gene value 1 with the 90-degree step decodes to
`(⌊1 * 4⌋ mod 4) * 90 = 0`, inside the quantized set. -/
theorem c7_witness :
    decodeRotation false 90 1 = 0 ∧
      decodeRotation true 90 1 =
        ((⌊(1 : ℚ) * ((4 : ℕ) : ℚ)⌋ % ((4 : ℕ) : ℤ) : ℤ) : ℚ) * 90 ∧
      (decodeRotation true 90 1 = 0 ∨ decodeRotation true 90 1 = 90 ∨
        decodeRotation true 90 1 = 180 ∨ decodeRotation true 90 1 = 270) := by
  obtain ⟨h1, h2, h3⟩ := c7_rotation_quantized 90 1 4
  exact ⟨h1, h2 (by norm_num) (by norm_num) (by norm_num), h3 (by norm_num) (by norm_num)⟩
